import Mathlib

/-!
Verification of the command translation and execution layer of an MCP server
for RethinkDB (`server/server.go`).  Handlers are embedded as pure Lean
functions over an explicit driver model: every handler receives a `Driver`
(the responses the RethinkDB driver would give to each query) and returns the
list of driver calls it issued together with the Go-style
`(output, error)` pair.  JSON values decoded by `json.Unmarshal` are embedded
as the inductive `JValue` (Go `map[string]interface{}` objects become
association lists with distinct keys; JSON numbers are modelled as integers,
which is all the verified claims need).
-/

namespace RethinkMCP

/-- A decoded JSON value (`interface{}` after `json.Unmarshal` in Go). -/
inductive JValue where
  | null : JValue
  | bool (b : Bool) : JValue
  | num (n : Int) : JValue
  | str (s : String) : JValue
  | arr (elems : List JValue) : JValue
  | obj (fields : List (String × JValue)) : JValue


/-- Go map indexing `m[key]` on a decoded JSON object. -/
def fieldGet : List (String × JValue) → String → Option JValue
  | [], _ => none
  | (k, v) :: rest, key => if k = key then some v else fieldGet rest key

/-- Go map assignment `m[key] = value` when `key` is already present. -/
def setField : List (String × JValue) → String → JValue → List (String × JValue)
  | [], _, _ => []
  | (k, v) :: rest, key, nv =>
      if k = key then (k, nv) :: rest else (k, v) :: setField rest key nv

/-- The keys of a decoded JSON object. -/
def objKeys (fields : List (String × JValue)) : List String := fields.map Prod.fst

/-- `true` exactly on JSON objects (the Go type assertion
`data.(map[string]interface{})` succeeding). -/
def JValue.isObj : JValue → Bool
  | .obj _ => true
  | _ => false

/-- A ReQL read query term as built by `QueryTable`
(`r.DB(db).Table(tbl)` then optional `.Filter`, `.OrderBy`, final `.Limit`). -/
inductive ReadQuery where
  | table (db tbl : String) : ReadQuery
  | filter (q : ReadQuery) (f : List (String × JValue)) : ReadQuery
  | orderBy (q : ReadQuery) (field : String) : ReadQuery
  | limit (q : ReadQuery) (n : Int) : ReadQuery


/-- A ReQL write term as built by `WriteData`. -/
inductive WriteCall where
  /-- `table.Insert(data)` (conflict strategy `none`) or
  `table.Insert(data, r.InsertOpts{Conflict: c})` (conflict strategy `some c`). -/
  | insert (db tbl : String) (data : JValue) (conflict : Option String) : WriteCall
  /-- `table.Get(id).Delete()` — point delete by primary key. -/
  | getDelete (db tbl : String) (id : JValue) : WriteCall
  /-- `table.Filter(data).Delete()` — bulk delete by filter. -/
  | filterDelete (db tbl : String) (data : JValue) : WriteCall


/-- The calls a handler issues to the RethinkDB driver. -/
inductive DriverCall where
  | tableList (db : String) : DriverCall
  | run (q : ReadQuery) : DriverCall
  | info (db tbl : String) : DriverCall
  | indexList (db tbl : String) : DriverCall
  | countQuery (db tbl : String) : DriverCall
  | runWrite (w : WriteCall) : DriverCall


/-- `r.WriteResponse` — the driver's summary of a write. -/
structure WriteResponse where
  inserted : Int
  replaced : Int
  unchanged : Int
  deleted : Int
  errors : Int
  firstError : String


/-- Driver responses.  Each read query has two failure sites in the Go code —
`Run` can fail, and then reading the cursor (`cursor.All` / `cursor.One`)
can fail — so read responses are doubly staged:
the outer `Except` is the `Run` error, the inner one the cursor-read error.
`Option (List _)` models a Go slice, which `cursor.All` may leave `nil`
when no rows arrive; `RunWrite` returns a single-stage `(resp, err)` pair. -/
structure Driver where
  tableList : String → Except String (Except String (Option (List String)))
  run : ReadQuery → Except String (Except String (List JValue))
  info : String → String → Except String (Except String (List (String × JValue)))
  indexList : String → String → Except String (Except String (Option (List String)))
  countQuery : String → String → Except String (Except String Int)
  runWrite : WriteCall → Except String WriteResponse

/-- A staged read response that failed at either site
(`Run` returned an error, or the cursor read did). -/
def stagedFailed : Except String (Except String α) → Bool
  | .error _ => true
  | .ok (.error _) => true
  | .ok (.ok _) => false

/-- What a Go handler returns, instrumented with the driver calls it issued:
the output struct is always present (the zero value on failure, exactly as the
Go handlers `return nil, Output{}, err`), and `error` is `some` message on
failure, `none` on success. -/
structure HResult (α : Type) where
  calls : List DriverCall
  output : α
  error : Option String


-- ─── Input/Output structs ────────────────────────────────────────────────────

structure ListTablesInput where
  database : String


/-- `ListTablesOutput`; `tables` is a Go slice, `none` modelling `nil`. -/
structure ListTablesOutput where
  database : String
  tables : Option (List String)


/-- The Go zero value of `ListTablesOutput` (nil slice). -/
def ListTablesOutput.zero : ListTablesOutput := { database := "", tables := none }

structure QueryTableInput where
  database : String
  table : String
  filter : List (String × JValue)
  limit : Int
  orderBy : String


structure QueryTableOutput where
  database : String
  table : String
  count : Int
  results : List JValue


/-- The Go zero value of `QueryTableOutput`. -/
def QueryTableOutput.zero : QueryTableOutput :=
  { database := "", table := "", count := 0, results := [] }

structure TableInfoInput where
  database : String
  table : String


/-- `TableInfoOutput`; `indexes` is a Go slice, `none` modelling `nil`.
`tableStatus` is declared in the Go struct but never assigned by the handler. -/
structure TableInfoOutput where
  database : String
  table : String
  primaryKey : String
  indexes : Option (List String)
  docCount : Int
  tableStatus : Option (List JValue)


/-- The Go zero value of `TableInfoOutput` (nil slices, zero count). -/
def TableInfoOutput.zero : TableInfoOutput :=
  { database := "", table := "", primaryKey := "", indexes := none,
    docCount := 0, tableStatus := none }

/-- The undecoded `Data json.RawMessage` field of `WriteDataInput`,
by the outcome of the two checks the handler performs on it:
`empty` when `len(input.Data) == 0`, `malformed` when `json.Unmarshal`
fails with message `e`, `value v` when it decodes to `v`. -/
inductive RawData where
  | empty : RawData
  | malformed (e : String) : RawData
  | value (v : JValue) : RawData

/-- The Go check `len(input.Data) == 0`. -/
def RawData.isEmpty : RawData → Bool
  | .empty => true
  | _ => false


structure WriteDataInput where
  database : String
  table : String
  data : RawData
  operation : String


structure WriteDataOutput where
  database : String
  table : String
  operation : String
  inserted : Int
  replaced : Int
  unchanged : Int
  deleted : Int
  errors : Int
  firstError : String


/-- The Go zero value of `WriteDataOutput`, returned with every error. -/
def WriteDataOutput.zero : WriteDataOutput :=
  { database := "", table := "", operation := "", inserted := 0, replaced := 0,
    unchanged := 0, deleted := 0, errors := 0, firstError := "" }

-- ─── Handlers ────────────────────────────────────────────────────────────────

/-- `ListTables` (`server.go`): reject an empty database name, run
`r.DB(db).TableList()`, read all rows, replace a nil slice by `[]string{}`. -/
def listTables (drv : Driver) (input : ListTablesInput) : HResult ListTablesOutput :=
  if input.database = "" then
    ⟨[], ListTablesOutput.zero, some "database name is required"⟩
  else
    match drv.tableList input.database with
    | .error e =>
        ⟨[.tableList input.database], ListTablesOutput.zero,
         some ("failed to list tables: " ++ e)⟩
    | .ok (.error e) =>
        ⟨[.tableList input.database], ListTablesOutput.zero,
         some ("failed to read tables: " ++ e)⟩
    | .ok (.ok tablesSlice) =>
        let tables := match tablesSlice with
          | none => []
          | some ts => ts
        ⟨[.tableList input.database],
         { database := input.database, tables := some tables }, none⟩

/-- The limit clamp of `QueryTable` (`server.go` lines 134-140):
`limit := input.Limit; if limit <= 0 { limit = 100 }; if limit > 1000 { limit = 1000 }`. -/
def resolvedLimit (l : Int) : Int :=
  let limit := if l ≤ 0 then 100 else l
  if limit > 1000 then 1000 else limit

/-- The ReQL term `QueryTable` builds: table scan, then `.Filter` if the
filter map is non-empty, then `.OrderBy` if an order field is given, then
`.Limit` with the clamped limit. -/
def buildQuery (input : QueryTableInput) : ReadQuery :=
  let query := ReadQuery.table input.database input.table
  let query := if input.filter.length > 0 then query.filter input.filter else query
  let query := if input.orderBy ≠ "" then query.orderBy input.orderBy else query
  query.limit (resolvedLimit input.limit)

/-- The limit attached at the outermost node of a built query. -/
def appliedLimit : ReadQuery → Option Int
  | ReadQuery.limit _ n => some n
  | _ => none

/-- `QueryTable` (`server.go`): reject empty names, clamp the limit, build and
run the query, read all results, report them with their count. -/
def queryTable (drv : Driver) (input : QueryTableInput) : HResult QueryTableOutput :=
  if input.database = "" ∨ input.table = "" then
    ⟨[], QueryTableOutput.zero, some "database and table names are required"⟩
  else
    let query := buildQuery input
    match drv.run query with
    | .error e =>
        ⟨[.run query], QueryTableOutput.zero, some ("failed to execute query: " ++ e)⟩
    | .ok (.error e) =>
        ⟨[.run query], QueryTableOutput.zero, some ("failed to read results: " ++ e)⟩
    | .ok (.ok results) =>
        ⟨[.run query],
         { database := input.database, table := input.table,
           count := results.length, results := results }, none⟩

/-- `TableInfo` (`server.go`): reject empty names; the `Info()` lookup is
primary (either failure site fails the command); the `IndexList()` and
`Count()` lookups are best-effort — any failure leaves the output field at
its default, and a nil index slice is replaced by `[]string{}`. -/
def tableInfo (drv : Driver) (input : TableInfoInput) : HResult TableInfoOutput :=
  if input.database = "" ∨ input.table = "" then
    ⟨[], TableInfoOutput.zero, some "database and table names are required"⟩
  else
    match drv.info input.database input.table with
    | .error e =>
        ⟨[.info input.database input.table], TableInfoOutput.zero,
         some ("failed to get table info: " ++ e)⟩
    | .ok (.error e) =>
        ⟨[.info input.database input.table], TableInfoOutput.zero,
         some ("failed to read table info: " ++ e)⟩
    | .ok (.ok infoMap) =>
        -- `if pk, ok := info["primary_key"].(string); ok { output.PrimaryKey = pk }`
        let pk := match fieldGet infoMap "primary_key" with
          | some (JValue.str s) => s
          | _ => ""
        -- best-effort index list; `nil` normalized to the empty slice after
        let indexes : Option (List String) :=
          match drv.indexList input.database input.table with
          | .ok (.ok idxSlice) => idxSlice
          | _ => none
        let indexes : Option (List String) :=
          match indexes with
          | none => some []
          | some l => some l
        -- best-effort document count; default 0 on any failure
        let docCount : Int :=
          match drv.countQuery input.database input.table with
          | .ok (.ok c) => c
          | _ => 0
        ⟨[.info input.database input.table,
          .indexList input.database input.table,
          .countQuery input.database input.table],
         { database := input.database, table := input.table, primaryKey := pk,
           indexes := indexes, docCount := docCount, tableStatus := none }, none⟩

/-- The delete branch of `WriteData` (`server.go` lines 267-283): if the
decoded payload is an object whose `"id"` lookup succeeds and which has
exactly one key, issue `table.Get(id).Delete()`; any other object, and any
non-object payload, is passed to `table.Filter(data).Delete()`. -/
def deleteCall (db tbl : String) (data : JValue) : WriteCall :=
  match data with
  | JValue.obj fields =>
      match fieldGet fields "id" with
      | some id =>
          if fields.length = 1 then WriteCall.getDelete db tbl id
          else WriteCall.filterDelete db tbl data
      | none => WriteCall.filterDelete db tbl data
  | _ => WriteCall.filterDelete db tbl data

/-- The write term issued by `WriteData` for a validated operation
(the Go `switch operation` at lines 254-283; `operation` has already been
checked to be one of the four recognized strings, so the final branch is
the delete case). -/
def writeCallFor (operation db tbl : String) (data : JValue) : WriteCall :=
  if operation = "insert" then WriteCall.insert db tbl data none
  else if operation = "update" then WriteCall.insert db tbl data (some "update")
  else if operation = "upsert" then WriteCall.insert db tbl data (some "replace")
  else deleteCall db tbl data

/-- The Go lines `operation := input.Operation; if operation == "" { operation = "insert" }`. -/
def effectiveOp (operation : String) : String :=
  if operation = "" then "insert" else operation

/-- `WriteData` (`server.go`): validate names, data presence, and the
operation enum (defaulting to `insert`), parse the payload, dispatch the
write, and either wrap a driver error with the operation name (returning the
zero output) or report the driver's counts in the uniform output shape. -/
def writeData (drv : Driver) (input : WriteDataInput) : HResult WriteDataOutput :=
  if input.database = "" ∨ input.table = "" then
    ⟨[], WriteDataOutput.zero, some "database and table names are required"⟩
  else if input.data.isEmpty then
    ⟨[], WriteDataOutput.zero, some "data is required"⟩
  else
    let operation := effectiveOp input.operation
    if operation = "insert" ∨ operation = "update" ∨ operation = "upsert" ∨
        operation = "delete" then
      match input.data with
      | RawData.empty =>
          -- unreachable: ruled out by the emptiness check above
          ⟨[], WriteDataOutput.zero, some "data is required"⟩
      | RawData.malformed e =>
          ⟨[], WriteDataOutput.zero, some ("failed to parse data: " ++ e)⟩
      | RawData.value data =>
          let call := writeCallFor operation input.database input.table data
          match drv.runWrite call with
          | .error e =>
              ⟨[.runWrite call], WriteDataOutput.zero,
               some ("failed to execute " ++ operation ++ ": " ++ e)⟩
          | .ok resp =>
              ⟨[.runWrite call],
               { database := input.database, table := input.table,
                 operation := operation, inserted := resp.inserted,
                 replaced := resp.replaced, unchanged := resp.unchanged,
                 deleted := resp.deleted, errors := resp.errors,
                 firstError := resp.firstError }, none⟩
    else
      ⟨[], WriteDataOutput.zero,
       some ("invalid operation " ++ operation ++
             ": must be one of insert, update, upsert, delete")⟩

-- ─── Driver write semantics (modelled from the spec) ─────────────────────────

mutual

/-- Structural equality of JSON values (the driver's value equality). -/
def jbeq : JValue → JValue → Bool
  | JValue.null, JValue.null => true
  | JValue.bool a, JValue.bool b => a == b
  | JValue.num a, JValue.num b => a == b
  | JValue.str a, JValue.str b => a == b
  | JValue.arr xs, JValue.arr ys => jbeqList xs ys
  | JValue.obj fs, JValue.obj gs => jbeqFields fs gs
  | _, _ => false
termination_by a _ => sizeOf a

/-- Structural equality of JSON arrays, element by element. -/
def jbeqList : List JValue → List JValue → Bool
  | [], [] => true
  | x :: xs, y :: ys => jbeq x y && jbeqList xs ys
  | _, _ => false
termination_by l _ => sizeOf l

/-- Structural equality of JSON objects, field by field. -/
def jbeqFields : List (String × JValue) → List (String × JValue) → Bool
  | [], [] => true
  | (k, v) :: fs, (k2, v2) :: gs => k == k2 && jbeq v v2 && jbeqFields fs gs
  | _, _ => false
termination_by l _ => sizeOf l

end

/-- Structural equality of optional JSON values. -/
def jbeqOpt : Option JValue → Option JValue → Bool
  | some a, some b => jbeq a b
  | none, none => true
  | _, _ => false

mutual

/-- Modelled from the spec (§4.4, the external database driver's
conflict-resolution strategy `update`): a deep field-level merge of the
incoming value into the existing one — objects merge field by field,
recursively on fields present in both; any other incoming value wins. -/
def jmerge : JValue → JValue → JValue
  | JValue.obj oldFs, JValue.obj newFs => JValue.obj (jmergeInto oldFs newFs)
  | _, n => n
termination_by _ n => sizeOf n

/-- Merge each incoming field into an existing object's fields:
a field already present is deep-merged in place, a new field is appended. -/
def jmergeInto (oldFs : List (String × JValue)) :
    List (String × JValue) → List (String × JValue)
  | [] => oldFs
  | (k, nv) :: rest =>
      let merged :=
        match fieldGet oldFs k with
        | some ov => setField oldFs k (jmerge ov nv)
        | none => oldFs ++ [(k, nv)]
      jmergeInto merged rest
termination_by l => sizeOf l

end

/-- The primary-key (`id`) field of a document. -/
def docId : JValue → Option JValue
  | JValue.obj fs => fieldGet fs "id"
  | _ => none

/-- Modelled from the spec (§4.4 and glossary, the external database driver's
insert with a conflict-resolution strategy): inserting `doc` into a table of
documents.  When an existing document shares `doc`'s primary key (`id`), the
strategy decides the outcome — `"update"` deep-merges the incoming fields
into the existing document, `"replace"` replaces it wholly, and with no
strategy the existing document is kept (the duplicate-key error is reported
through the write counts, which this table model does not track).  With no
key conflict the document is appended (created if absent). -/
def applyConflictInsert (conflict : Option String) (tbl : List JValue)
    (doc : JValue) : List JValue :=
  match tbl with
  | [] => [doc]
  | d :: rest =>
      if jbeqOpt (docId d) (docId doc) && (docId doc).isSome then
        (if conflict = some "update" then jmerge d doc
         else if conflict = some "replace" then doc
         else d) :: rest
      else d :: applyConflictInsert conflict rest doc

-- ─── advanced_query range scan (modelled from the spec) ──────────────────────

/-- Modelled from the spec (§4.2, range scan; the `advanced_query` handler is
absent from src/ — only its tests are): the `between` operation over a named
secondary index keeps exactly the documents whose value on the indexed field
lies in the half-open interval `[lower, upper)` — inclusive on the lower
edge, exclusive on the upper edge.  Index values are JSON numbers, modelled
as integers. -/
def betweenScan (index : String) (lower upper : Int) (docs : List JValue) :
    List JValue :=
  docs.filter fun d =>
    match d with
    | JValue.obj fs =>
        match fieldGet fs index with
        | some (JValue.num n) => decide (lower ≤ n) && decide (n < upper)
        | _ => false
    | _ => false

-- ─── aggregate dispatcher (modelled from the spec) ───────────────────────────

/-- The numeric value of field `field` of a document, when present. -/
def fieldNum (field : String) (d : JValue) : Option Int :=
  match d with
  | JValue.obj fs =>
      match fieldGet fs field with
      | some (JValue.num n) => some n
      | _ => none
  | _ => none

/-- The value an aggregation returns: a bare scalar (count/sum/avg) or an
entire document (min/max). -/
inductive AggValue where
  | scalar (q : Rat) : AggValue
  | document (d : JValue) : AggValue

/-- The document/value pair with the smallest value, first seen winning ties. -/
def minPair : JValue × Int → List (JValue × Int) → JValue × Int
  | best, [] => best
  | best, p :: rest => minPair (if p.2 < best.2 then p else best) rest

/-- The document/value pair with the largest value, first seen winning ties. -/
def maxPair : JValue × Int → List (JValue × Int) → JValue × Int
  | best, [] => best
  | best, p :: rest => maxPair (if best.2 < p.2 then p else best) rest

/-- The documents carrying the aggregation field numerically, paired with
that field's value. -/
def aggValsOf (field : String) (docs : List JValue) : List (JValue × Int) :=
  docs.filterMap fun d => (fieldNum field d).map fun n => (d, n)

/-- Modelled from the spec (§4.3, aggregation dispatcher; the `aggregate`
handler is absent from src/ — only its tests are): over the documents left
by the optional pre-filter, `count` is the number of documents; `sum` and
`avg` are bare scalars computed from the named field over the documents
carrying it numerically; `min` and `max` return the entire document whose
named field is extreme, not a bare scalar.  A missing field name or an
operation outside these is routed through the error result (the `group`
operation, which no claim covers, is likewise out of this model's range).
Field values are JSON numbers, modelled as integers; scalars as exact
rationals in place of Go float64. -/
def aggregateRun (op field : String) (docs : List JValue) :
    Except String AggValue :=
  if op = "count" then Except.ok (AggValue.scalar (docs.length : Rat))
  else if op = "sum" ∨ op = "avg" ∨ op = "min" ∨ op = "max" then
    if field = "" then Except.error ("field is required for operation " ++ op)
    else if op = "sum" then
      Except.ok (AggValue.scalar
        ((((aggValsOf field docs).map Prod.snd).sum : Int) : Rat))
    else if op = "avg" then
      match aggValsOf field docs with
      | [] => Except.error "no documents with the aggregation field"
      | _ :: _ =>
          Except.ok (AggValue.scalar
            (((((aggValsOf field docs).map Prod.snd).sum : Int) : Rat) /
              ((aggValsOf field docs).length : Rat)))
    else if op = "min" then
      match aggValsOf field docs with
      | [] => Except.error "no documents with the aggregation field"
      | v :: rest => Except.ok (AggValue.document (minPair v rest).1)
    else
      -- op = "max": the only remaining recognized extremum operation
      match aggValsOf field docs with
      | [] => Except.error "no documents with the aggregation field"
      | v :: rest => Except.ok (AggValue.document (maxPair v rest).1)
  else Except.error ("invalid operation " ++ op)

-- ─── query_table with statistics (modelled from the spec) ────────────────────

structure QueryTableTimedOutput where
  database : String
  table : String
  count : Int
  results : List JValue
  executionTimeMs : Rat

/-- The Go zero value of the statistics-bearing query output. -/
def QueryTableTimedOutput.zero : QueryTableTimedOutput :=
  { database := "", table := "", count := 0, results := [],
    executionTimeMs := 0 }

/-- Modelled from the spec (§4.2, §6; the current `query_table` handler with
query statistics is absent from src/ — only its tests are): identical to
`queryTable`, but the elapsed wall-clock time of executing the query is
reported in fractional milliseconds in the `execution_time_ms` field of
every successful response, alongside the result count.  The wall clock is
external: the elapsed nanoseconds of the driver call are an input, and
fractional milliseconds are modelled as exact rationals in place of Go
float64. -/
def queryTableTimed (drv : Driver) (elapsedNs : Int) (input : QueryTableInput) :
    HResult QueryTableTimedOutput :=
  if input.database = "" ∨ input.table = "" then
    ⟨[], QueryTableTimedOutput.zero, some "database and table names are required"⟩
  else
    let query := buildQuery input
    match drv.run query with
    | .error e =>
        ⟨[.run query], QueryTableTimedOutput.zero,
         some ("failed to execute query: " ++ e)⟩
    | .ok (.error e) =>
        ⟨[.run query], QueryTableTimedOutput.zero,
         some ("failed to read results: " ++ e)⟩
    | .ok (.ok results) =>
        ⟨[.run query],
         { database := input.database, table := input.table,
           count := results.length, results := results,
           executionTimeMs := (elapsedNs : Rat) / 1000000 }, none⟩

-- ─── Concrete drivers used to instantiate the theorems ───────────────────────

/-- A concrete driver on which every call succeeds. -/
def okDriver : Driver where
  tableList _ := .ok (.ok (some ["users"]))
  run _ := .ok (.ok [JValue.obj [("id", JValue.str "1")]])
  info _ _ := .ok (.ok [("primary_key", JValue.str "id")])
  indexList _ _ := .ok (.ok (some ["age"]))
  countQuery _ _ := .ok (.ok 3)
  runWrite _ := .ok ⟨1, 0, 0, 0, 0, ""⟩

/-- A concrete driver whose primary info lookup succeeds while the
best-effort index-list and count reads fail (one at each failure site),
and whose writes fail. -/
def flakyDriver : Driver where
  tableList _ := .ok (.ok none)
  run _ := .error "connection refused"
  info _ _ := .ok (.ok [("primary_key", JValue.str "id")])
  indexList _ _ := .error "index lookup refused"
  countQuery _ _ := .ok (.error "count cursor failed")
  runWrite _ := .error "write refused"

/-- The three seeded test documents (ages 30, 25, 35). -/
def sampleDocs : List JValue :=
  [JValue.obj [("id", JValue.str "1"), ("name", JValue.str "Alice"),
               ("age", JValue.num 30)],
   JValue.obj [("id", JValue.str "2"), ("name", JValue.str "Bob"),
               ("age", JValue.num 25)],
   JValue.obj [("id", JValue.str "3"), ("name", JValue.str "Charlie"),
               ("age", JValue.num 35)]]

-- ─── Helper lemmas ───────────────────────────────────────────────────────────

/-- The limit clamp written as one expression. -/
theorem resolvedLimit_def (l : Int) :
    resolvedLimit l =
      if (if l ≤ 0 then 100 else l) > 1000 then 1000
      else (if l ≤ 0 then 100 else l) := rfl

/-- The limit clamp is idempotent. -/
theorem resolvedLimit_idem (l : Int) :
    resolvedLimit (resolvedLimit l) = resolvedLimit l := by
  rw [resolvedLimit_def, resolvedLimit_def]
  split_ifs <;> omega

/-- A one-entry object in which a key lookup succeeds is exactly that binding. -/
theorem fieldGet_singleton (fields : List (String × JValue)) (key : String)
    (v : JValue) (h : fieldGet fields key = some v) (hlen : fields.length = 1) :
    fields = [(key, v)] := by
  obtain ⟨⟨k, w⟩, rfl⟩ : ∃ p, fields = [p] := by
    cases fields with
    | nil => simp at hlen
    | cons a t =>
      cases t with
      | nil => exact ⟨a, rfl⟩
      | cons b t2 => simp at hlen
  unfold fieldGet at h
  split at h
  · next hk =>
    injection h with h
    subst hk
    subst h
    rfl
  · next =>
    exact absurd h (by simp [fieldGet])

/-- `setField` at one key does not change lookups at another. -/
theorem fieldGet_setField_ne (fs : List (String × JValue)) (key k : String)
    (nv : JValue) (h : k ≠ key) :
    fieldGet (setField fs key nv) k = fieldGet fs k := by
  induction fs with
  | nil => rfl
  | cons p rest ih =>
    obtain ⟨pk, pv⟩ := p
    unfold setField
    by_cases hpk : pk = key
    · rw [if_pos hpk]
      unfold fieldGet
      have hpkk : ¬ pk = k := fun hc => h (by rw [← hc]; exact hpk)
      rw [if_neg hpkk, if_neg hpkk]
    · rw [if_neg hpk]
      unfold fieldGet
      by_cases hpkk : pk = k
      · rw [if_pos hpkk, if_pos hpkk]
      · rw [if_neg hpkk, if_neg hpkk]
        exact ih

/-- Appending a binding for one key does not change lookups at another. -/
theorem fieldGet_append_ne (fs : List (String × JValue)) (key k : String)
    (nv : JValue) (h : k ≠ key) :
    fieldGet (fs ++ [(key, nv)]) k = fieldGet fs k := by
  induction fs with
  | nil =>
    show fieldGet [(key, nv)] k = fieldGet [] k
    unfold fieldGet
    rw [if_neg (fun hc => h hc.symm)]
    rfl
  | cons p rest ih =>
    obtain ⟨pk, pv⟩ := p
    show fieldGet ((pk, pv) :: (rest ++ [(key, nv)])) k = fieldGet ((pk, pv) :: rest) k
    unfold fieldGet
    by_cases hpkk : pk = k
    · rw [if_pos hpkk, if_pos hpkk]
    · rw [if_neg hpkk, if_neg hpkk]
      exact ih

/-- The defining equation of `jmergeInto` on the empty payload. -/
theorem jmergeInto_nil (oldFs : List (String × JValue)) :
    jmergeInto oldFs [] = oldFs := by
  unfold jmergeInto
  rfl

/-- The defining equation of `jmergeInto` on a payload field. -/
theorem jmergeInto_cons (oldFs : List (String × JValue)) (pk : String)
    (pv : JValue) (rest : List (String × JValue)) :
    jmergeInto oldFs ((pk, pv) :: rest) =
      jmergeInto
        (match fieldGet oldFs pk with
         | some ov => setField oldFs pk (jmerge ov pv)
         | none => oldFs ++ [(pk, pv)]) rest := by
  conv_lhs => unfold jmergeInto

/-- `jmerge` on two objects merges their field lists. -/
theorem jmerge_obj (oldFs newFs : List (String × JValue)) :
    jmerge (JValue.obj oldFs) (JValue.obj newFs) =
      JValue.obj (jmergeInto oldFs newFs) := by
  unfold jmerge
  rfl

/-- Merging in an object that lacks key `k` leaves lookups at `k` unchanged:
fields of the existing document absent from the payload survive a merge. -/
theorem jmergeInto_preserves_absent (newFs : List (String × JValue)) :
    ∀ oldFs k, fieldGet newFs k = none →
      fieldGet (jmergeInto oldFs newFs) k = fieldGet oldFs k := by
  induction newFs with
  | nil =>
    intro oldFs k _
    rw [jmergeInto_nil]
  | cons p rest ih =>
    intro oldFs k h
    obtain ⟨pk, pv⟩ := p
    unfold fieldGet at h
    rw [jmergeInto_cons]
    split at h
    · exact absurd h (by simp)
    · next hne =>
      rw [ih _ k h]
      have hkpk : k ≠ pk := fun hc => hne hc.symm
      cases hget : fieldGet oldFs pk with
      | some ov => simp only [hget]; exact fieldGet_setField_ne _ _ _ _ hkpk
      | none => simp only [hget]; exact fieldGet_append_ne _ _ _ _ hkpk

/-- The minimum-tracking fold returns one of its candidates. -/
theorem minPair_mem (best : JValue × Int) (l : List (JValue × Int)) :
    minPair best l ∈ best :: l := by
  induction l generalizing best with
  | nil => simp [minPair]
  | cons q rest ih =>
    unfold minPair
    rcases List.mem_cons.mp (ih (if q.2 < best.2 then q else best)) with h | h
    · rw [h]
      split
      · exact List.mem_cons_of_mem _ (List.mem_cons_self _ _)
      · exact List.mem_cons_self _ _
    · exact List.mem_cons_of_mem _ (List.mem_cons_of_mem _ h)

/-- The minimum-tracking fold is a lower bound on all candidates. -/
theorem minPair_le (best : JValue × Int) (l : List (JValue × Int)) :
    ∀ p ∈ best :: l, (minPair best l).2 ≤ p.2 := by
  induction l generalizing best with
  | nil =>
    intro p hp
    rcases List.mem_cons.mp hp with h | h
    · rw [h]; exact le_refl _
    · exact absurd h (List.not_mem_nil p)
  | cons q rest ih =>
    intro p hp
    unfold minPair
    have hble : (minPair (if q.2 < best.2 then q else best) rest).2 ≤
        (if q.2 < best.2 then q else best).2 :=
      ih _ _ (List.mem_cons_self _ _)
    have hmin : (if q.2 < best.2 then q else best).2 ≤ best.2 ∧
        (if q.2 < best.2 then q else best).2 ≤ q.2 := by
      split <;> constructor <;> omega
    rcases List.mem_cons.mp hp with h | h
    · rw [h]; exact le_trans hble hmin.1
    · rcases List.mem_cons.mp h with h2 | h2
      · rw [h2]; exact le_trans hble hmin.2
      · exact ih _ p (List.mem_cons_of_mem _ h2)

/-- The maximum-tracking fold returns one of its candidates. -/
theorem maxPair_mem (best : JValue × Int) (l : List (JValue × Int)) :
    maxPair best l ∈ best :: l := by
  induction l generalizing best with
  | nil => simp [maxPair]
  | cons q rest ih =>
    unfold maxPair
    rcases List.mem_cons.mp (ih (if best.2 < q.2 then q else best)) with h | h
    · rw [h]
      split
      · exact List.mem_cons_of_mem _ (List.mem_cons_self _ _)
      · exact List.mem_cons_self _ _
    · exact List.mem_cons_of_mem _ (List.mem_cons_of_mem _ h)

/-- The maximum-tracking fold is an upper bound on all candidates. -/
theorem maxPair_ge (best : JValue × Int) (l : List (JValue × Int)) :
    ∀ p ∈ best :: l, p.2 ≤ (maxPair best l).2 := by
  induction l generalizing best with
  | nil =>
    intro p hp
    rcases List.mem_cons.mp hp with h | h
    · rw [h]; exact le_refl _
    · exact absurd h (List.not_mem_nil p)
  | cons q rest ih =>
    intro p hp
    unfold maxPair
    have hble : (if best.2 < q.2 then q else best).2 ≤
        (maxPair (if best.2 < q.2 then q else best) rest).2 :=
      ih _ _ (List.mem_cons_self _ _)
    have hmax : best.2 ≤ (if best.2 < q.2 then q else best).2 ∧
        q.2 ≤ (if best.2 < q.2 then q else best).2 := by
      split <;> constructor <;> omega
    rcases List.mem_cons.mp hp with h | h
    · rw [h]; exact le_trans hmax.1 hble
    · rcases List.mem_cons.mp h with h2 | h2
      · rw [h2]; exact le_trans hmax.2 hble
      · exact ih _ p (List.mem_cons_of_mem _ h2)

/-- A `writeData` call that passes all validation reduces to the driver's
response to the dispatched write term. -/
theorem writeData_dispatch_eq (drv : Driver) (db tbl op : String) (v : JValue)
    (hdb : db ≠ "") (htbl : tbl ≠ "")
    (hop : effectiveOp op = "insert" ∨ effectiveOp op = "update" ∨
           effectiveOp op = "upsert" ∨ effectiveOp op = "delete") :
    writeData drv ⟨db, tbl, RawData.value v, op⟩ =
      match drv.runWrite (writeCallFor (effectiveOp op) db tbl v) with
      | .error e =>
          ⟨[DriverCall.runWrite (writeCallFor (effectiveOp op) db tbl v)],
           WriteDataOutput.zero,
           some ("failed to execute " ++ effectiveOp op ++ ": " ++ e)⟩
      | .ok resp =>
          ⟨[DriverCall.runWrite (writeCallFor (effectiveOp op) db tbl v)],
           { database := db, table := tbl, operation := effectiveOp op,
             inserted := resp.inserted, replaced := resp.replaced,
             unchanged := resp.unchanged, deleted := resp.deleted,
             errors := resp.errors, firstError := resp.firstError }, none⟩ := by
  simp only [writeData, RawData.isEmpty]
  rw [if_neg (by simp [hdb, htbl]), if_neg (by simp), if_pos hop]

-- ─── Claim theorems ──────────────────────────────────────────────────────────

/-- C2: for every integer limit input L to query_table, the resolved limit
applied to the built query equals 100 if L ≤ 0, L if 0 < L ≤ 1000, and 1000
if L > 1000; the clamping is silent — the handler's entire observable result
on L is identical to its result on the already-clamped limit, so no error or
warning lets a caller distinguish a clamped limit from an exact one. -/
theorem queryTable_limit_clamped (drv : Driver) (input : QueryTableInput) :
    resolvedLimit input.limit =
      (if input.limit ≤ 0 then 100
       else if input.limit ≤ 1000 then input.limit else 1000) ∧
    appliedLimit (buildQuery input) = some (resolvedLimit input.limit) ∧
    queryTable drv input =
      queryTable drv { input with limit := resolvedLimit input.limit } := by
  refine ⟨?_, rfl, ?_⟩
  · rw [resolvedLimit_def]
    split_ifs <;> omega
  · have hq : buildQuery { input with limit := resolvedLimit input.limit } =
        buildQuery input := by
      unfold buildQuery
      rw [resolvedLimit_idem]
    unfold queryTable
    rw [hq]

/-- C4: every command taking a namespace and/or collection parameter
(list_tables, query_table, table_info, write_data) rejects an empty
namespace or collection with an error, issuing no database call and
returning the zero output rather than silently substituting a default. -/
theorem empty_names_rejected (drv : Driver) (lt : ListTablesInput)
    (qt : QueryTableInput) (ti : TableInfoInput) (wd : WriteDataInput) :
    (lt.database = "" →
        listTables drv lt =
          ⟨[], ListTablesOutput.zero, some "database name is required"⟩) ∧
    (qt.database = "" ∨ qt.table = "" →
        queryTable drv qt =
          ⟨[], QueryTableOutput.zero,
           some "database and table names are required"⟩) ∧
    (ti.database = "" ∨ ti.table = "" →
        tableInfo drv ti =
          ⟨[], TableInfoOutput.zero,
           some "database and table names are required"⟩) ∧
    (wd.database = "" ∨ wd.table = "" →
        writeData drv wd =
          ⟨[], WriteDataOutput.zero,
           some "database and table names are required"⟩) := by
  refine ⟨fun h => ?_, fun h => ?_, fun h => ?_, fun h => ?_⟩
  · unfold listTables
    rw [if_pos h]
  · unfold queryTable
    rw [if_pos h]
  · unfold tableInfo
    rw [if_pos h]
  · unfold writeData
    rw [if_pos h]

/-- Witness for C4: concrete invocations with empty names are rejected. -/
theorem empty_names_rejected_witness :
    listTables okDriver ⟨""⟩ =
      ⟨[], ListTablesOutput.zero, some "database name is required"⟩ ∧
    queryTable okDriver ⟨"", "users", [], 0, ""⟩ =
      ⟨[], QueryTableOutput.zero, some "database and table names are required"⟩ ∧
    tableInfo okDriver ⟨"test", ""⟩ =
      ⟨[], TableInfoOutput.zero, some "database and table names are required"⟩ ∧
    writeData okDriver ⟨"", "", RawData.empty, "insert"⟩ =
      ⟨[], WriteDataOutput.zero, some "database and table names are required"⟩ :=
  ⟨(empty_names_rejected okDriver ⟨""⟩ ⟨"", "users", [], 0, ""⟩ ⟨"test", ""⟩
      ⟨"", "", RawData.empty, "insert"⟩).1 rfl,
   (empty_names_rejected okDriver ⟨""⟩ ⟨"", "users", [], 0, ""⟩ ⟨"test", ""⟩
      ⟨"", "", RawData.empty, "insert"⟩).2.1 (Or.inl rfl),
   (empty_names_rejected okDriver ⟨""⟩ ⟨"", "users", [], 0, ""⟩ ⟨"test", ""⟩
      ⟨"", "", RawData.empty, "insert"⟩).2.2.1 (Or.inr rfl),
   (empty_names_rejected okDriver ⟨""⟩ ⟨"", "users", [], 0, ""⟩ ⟨"test", ""⟩
      ⟨"", "", RawData.empty, "insert"⟩).2.2.2 (Or.inl rfl)⟩

/-- C10: for every successful list_tables and table_info invocation, the
tables list and the indexes list are never null/absent; and the value
substituted is the empty list, not a default: a driver reporting no table
entries (a nil slice) yields `tables = some []`, and an index lookup that
fails at either site — or reports a nil slice — yields `indexes = some []`. -/
theorem lists_never_nil (drv : Driver) (lt : ListTablesInput)
    (ti : TableInfoInput) :
    ((listTables drv lt).error = none →
        ((listTables drv lt).output.tables).isSome = true) ∧
    (lt.database ≠ "" →
        drv.tableList lt.database = Except.ok (Except.ok none) →
        (listTables drv lt).output.tables = some []) ∧
    ((tableInfo drv ti).error = none →
        ((tableInfo drv ti).output.indexes).isSome = true) ∧
    (∀ infoMap, ti.database ≠ "" → ti.table ≠ "" →
        drv.info ti.database ti.table = Except.ok (Except.ok infoMap) →
        (stagedFailed (drv.indexList ti.database ti.table) = true ∨
         drv.indexList ti.database ti.table = Except.ok (Except.ok none)) →
        (tableInfo drv ti).output.indexes = some []) := by
  refine ⟨?_, ?_, ?_, ?_⟩
  · intro h
    unfold listTables at h ⊢
    by_cases hdb : lt.database = ""
    · rw [if_pos hdb] at h
      exact Option.noConfusion h
    · rw [if_neg hdb] at h ⊢
      cases htl : drv.tableList lt.database with
      | error e =>
        rw [htl] at h
        exact Option.noConfusion h
      | ok inner =>
        cases inner with
        | error e =>
          rw [htl] at h
          exact Option.noConfusion h
        | ok tablesSlice =>
          rfl
  · intro hdb htl
    unfold listTables
    rw [if_neg hdb, htl]
  · intro h
    unfold tableInfo at h ⊢
    by_cases hdb : ti.database = "" ∨ ti.table = ""
    · rw [if_pos hdb] at h
      exact Option.noConfusion h
    · rw [if_neg hdb] at h ⊢
      cases hinfo : drv.info ti.database ti.table with
      | error e =>
        rw [hinfo] at h
        exact Option.noConfusion h
      | ok inner =>
        cases inner with
        | error e =>
          rw [hinfo] at h
          exact Option.noConfusion h
        | ok infoMap =>
          cases hidx : drv.indexList ti.database ti.table with
          | error e => rfl
          | ok inner2 =>
            cases inner2 with
            | error e => rfl
            | ok idxSlice =>
              cases idxSlice with
              | none => rfl
              | some l => rfl
  · intro infoMap hdb htbl hinfo hidx
    unfold tableInfo
    rw [if_neg (by simp [hdb, htbl]), hinfo]
    rcases hidx with hfail | hnil
    · cases hcase : drv.indexList ti.database ti.table with
      | error e => rfl
      | ok inner =>
        cases inner with
        | error e => rfl
        | ok idxSlice =>
          rw [hcase] at hfail
          exact absurd hfail (by simp [stagedFailed])
    · rw [hnil]

/-- Witness for C10: a driver reporting a nil tables slice yields the
present empty tables list, and a failed index lookup yields the present
empty indexes list. -/
theorem lists_never_nil_witness :
    ((listTables flakyDriver ⟨"test"⟩).output.tables).isSome = true ∧
    (listTables flakyDriver ⟨"test"⟩).output.tables = some [] ∧
    ((tableInfo flakyDriver ⟨"test", "users"⟩).output.indexes).isSome = true ∧
    (tableInfo flakyDriver ⟨"test", "users"⟩).output.indexes = some [] :=
  ⟨(lists_never_nil flakyDriver ⟨"test"⟩ ⟨"test", "users"⟩).1 rfl,
   (lists_never_nil flakyDriver ⟨"test"⟩ ⟨"test", "users"⟩).2.1 (by decide) rfl,
   (lists_never_nil flakyDriver ⟨"test"⟩ ⟨"test", "users"⟩).2.2.1 rfl,
   (lists_never_nil flakyDriver ⟨"test"⟩ ⟨"test", "users"⟩).2.2.2
      [("primary_key", JValue.str "id")] (by decide) (by decide) rfl
      (Or.inl rfl)⟩

/-- C1: the write_data delete dispatch: a decoded payload object whose only
key is "id" yields a point delete of that primary key (`Get(id).Delete()`);
an object with any other key set yields a bulk delete of every matching
document (`Filter(payload).Delete()`); a non-object payload is passed as-is
as the filter of a bulk delete; and the executor issues exactly the
dispatched call. -/
theorem writeData_delete_dispatch (db tbl : String) (v : JValue) :
    (∀ idv, v = JValue.obj [("id", idv)] →
        deleteCall db tbl v = WriteCall.getDelete db tbl idv) ∧
    (∀ fields, v = JValue.obj fields → objKeys fields ≠ ["id"] →
        deleteCall db tbl v = WriteCall.filterDelete db tbl v) ∧
    (v.isObj = false → deleteCall db tbl v = WriteCall.filterDelete db tbl v) ∧
    (∀ drv, db ≠ "" → tbl ≠ "" →
        (writeData drv ⟨db, tbl, RawData.value v, "delete"⟩).calls =
          [DriverCall.runWrite (deleteCall db tbl v)]) := by
  refine ⟨?_, ?_, ?_, ?_⟩
  · rintro idv rfl
    rfl
  · rintro fields rfl hkeys
    show (match fieldGet fields "id" with
          | some id =>
              if fields.length = 1 then WriteCall.getDelete db tbl id
              else WriteCall.filterDelete db tbl (JValue.obj fields)
          | none => WriteCall.filterDelete db tbl (JValue.obj fields)) =
        WriteCall.filterDelete db tbl (JValue.obj fields)
    cases hid : fieldGet fields "id" with
    | none => rfl
    | some idv =>
      have hne : ¬ fields.length = 1 := by
        intro hlen
        apply hkeys
        rw [fieldGet_singleton fields "id" idv hid hlen]
        rfl
      dsimp only
      rw [if_neg hne]
  · intro hobj
    cases v with
    | obj fields => exact absurd hobj (by simp [JValue.isObj])
    | null => rfl
    | bool b => rfl
    | num n => rfl
    | str s => rfl
    | arr elems => rfl
  · intro drv hdb htbl
    rw [writeData_dispatch_eq drv db tbl "delete" v hdb htbl (by decide)]
    have hcall : writeCallFor (effectiveOp "delete") db tbl v = deleteCall db tbl v := rfl
    rw [hcall]
    cases drv.runWrite (deleteCall db tbl v) <;> rfl

/-- Witness for C1: a single-key id object is point-deleted, a status filter
object and a non-object payload are bulk-deleted, and the executor issues
the dispatched call. -/
theorem writeData_delete_dispatch_witness :
    deleteCall "test" "users" (JValue.obj [("id", JValue.str "x")]) =
      WriteCall.getDelete "test" "users" (JValue.str "x") ∧
    deleteCall "test" "users" (JValue.obj [("status", JValue.str "active")]) =
      WriteCall.filterDelete "test" "users"
        (JValue.obj [("status", JValue.str "active")]) ∧
    deleteCall "test" "users" (JValue.arr [JValue.str "1", JValue.str "2"]) =
      WriteCall.filterDelete "test" "users"
        (JValue.arr [JValue.str "1", JValue.str "2"]) ∧
    (writeData okDriver ⟨"test", "users",
        RawData.value (JValue.obj [("id", JValue.str "x")]), "delete"⟩).calls =
      [DriverCall.runWrite
        (deleteCall "test" "users" (JValue.obj [("id", JValue.str "x")]))] :=
  ⟨(writeData_delete_dispatch "test" "users" _).1 (JValue.str "x") rfl,
   (writeData_delete_dispatch "test" "users" _).2.1
      [("status", JValue.str "active")] rfl (by decide),
   (writeData_delete_dispatch "test" "users" _).2.2.1 rfl,
   (writeData_delete_dispatch "test" "users" _).2.2.2 okDriver
      (by decide) (by decide)⟩

/-- C5: for every write_data invocation that reaches the driver, a driver
failure fails the whole command with an error wrapping the underlying cause
together with the originating operation name, and the returned Write Result
is the zero value (no partial counts); a non-error result occurs exactly
when the driver call succeeded, and then carries the uniform Write Result
shape built from the driver's counts. -/
theorem writeData_uniform_result (drv : Driver) (input : WriteDataInput)
    (v : JValue) (hv : input.data = RawData.value v)
    (hdb : input.database ≠ "") (htbl : input.table ≠ "")
    (hop : effectiveOp input.operation = "insert" ∨
           effectiveOp input.operation = "update" ∨
           effectiveOp input.operation = "upsert" ∨
           effectiveOp input.operation = "delete") :
    (∀ e, drv.runWrite (writeCallFor (effectiveOp input.operation)
            input.database input.table v) = Except.error e →
        writeData drv input =
          ⟨[DriverCall.runWrite (writeCallFor (effectiveOp input.operation)
              input.database input.table v)],
           WriteDataOutput.zero,
           some ("failed to execute " ++ effectiveOp input.operation ++
                 ": " ++ e)⟩) ∧
    (∀ resp, drv.runWrite (writeCallFor (effectiveOp input.operation)
            input.database input.table v) = Except.ok resp →
        writeData drv input =
          ⟨[DriverCall.runWrite (writeCallFor (effectiveOp input.operation)
              input.database input.table v)],
           { database := input.database, table := input.table,
             operation := effectiveOp input.operation,
             inserted := resp.inserted, replaced := resp.replaced,
             unchanged := resp.unchanged, deleted := resp.deleted,
             errors := resp.errors, firstError := resp.firstError },
           none⟩) := by
  obtain ⟨db, tbl, data, op⟩ := input
  subst hv
  constructor
  · intro e he
    rw [writeData_dispatch_eq drv db tbl op v hdb htbl hop, he]
  · intro resp hresp
    rw [writeData_dispatch_eq drv db tbl op v hdb htbl hop, hresp]

/-- Witness for C5: on a failing driver the command fails with the wrapped
cause and the zero Write Result; on a succeeding driver it returns the
uniform shape. -/
theorem writeData_uniform_result_witness :
    writeData flakyDriver ⟨"test", "users",
        RawData.value (JValue.obj [("id", JValue.str "x")]), "insert"⟩ =
      ⟨[DriverCall.runWrite (writeCallFor (effectiveOp "insert") "test" "users"
          (JValue.obj [("id", JValue.str "x")]))],
       WriteDataOutput.zero,
       some ("failed to execute " ++ effectiveOp "insert" ++ ": " ++
             "write refused")⟩ ∧
    writeData okDriver ⟨"test", "users",
        RawData.value (JValue.obj [("id", JValue.str "x")]), "insert"⟩ =
      ⟨[DriverCall.runWrite (writeCallFor (effectiveOp "insert") "test" "users"
          (JValue.obj [("id", JValue.str "x")]))],
       { database := "test", table := "users", operation := effectiveOp "insert",
         inserted := 1, replaced := 0, unchanged := 0, deleted := 0,
         errors := 0, firstError := "" },
       none⟩ :=
  ⟨(writeData_uniform_result flakyDriver
      ⟨"test", "users", RawData.value (JValue.obj [("id", JValue.str "x")]),
       "insert"⟩
      (JValue.obj [("id", JValue.str "x")]) rfl (by decide) (by decide)
      (Or.inl rfl)).1 "write refused" rfl,
   (writeData_uniform_result okDriver
      ⟨"test", "users", RawData.value (JValue.obj [("id", JValue.str "x")]),
       "insert"⟩
      (JValue.obj [("id", JValue.str "x")]) rfl (by decide) (by decide)
      (Or.inl rfl)).2 ⟨1, 0, 0, 0, 0, ""⟩ rfl⟩

/-- C6: every successful query_table invocation (the statistics-bearing
handler, modelled from the spec) reports, alongside the result count, the
elapsed wall-clock execution time of the query in fractional milliseconds
in the execution_time_ms response field. -/
theorem queryTable_reports_execution_time (drv : Driver) (elapsedNs : Int)
    (input : QueryTableInput) (results : List JValue)
    (hdb : input.database ≠ "") (htbl : input.table ≠ "")
    (hrun : drv.run (buildQuery input) = Except.ok (Except.ok results)) :
    (queryTableTimed drv elapsedNs input).error = none ∧
    (queryTableTimed drv elapsedNs input).output.executionTimeMs =
      (elapsedNs : Rat) / 1000000 ∧
    (queryTableTimed drv elapsedNs input).output.count = results.length := by
  simp only [queryTableTimed]
  rw [if_neg (by simp [hdb, htbl]), hrun]
  exact ⟨rfl, rfl, rfl⟩

/-- Witness for C6: a successful timed query reports 1.5 ms for an elapsed
1500000 ns next to its result count. -/
theorem queryTable_reports_execution_time_witness :
    (queryTableTimed okDriver 1500000 ⟨"test", "users", [], 0, ""⟩).error =
      none ∧
    (queryTableTimed okDriver 1500000
        ⟨"test", "users", [], 0, ""⟩).output.executionTimeMs =
      (1500000 : Rat) / 1000000 ∧
    (queryTableTimed okDriver 1500000 ⟨"test", "users", [], 0, ""⟩).output.count =
      ([JValue.obj [("id", JValue.str "1")]] : List JValue).length :=
  queryTable_reports_execution_time okDriver 1500000 ⟨"test", "users", [], 0, ""⟩
    [JValue.obj [("id", JValue.str "1")]] (by decide) (by decide) rfl

/-- C7: when table_info's primary Info lookup succeeds, a failure of either
best-effort secondary read does not fail the command: the command still
returns success, an index-list failure yields the empty index list, and a
count failure yields document count zero. -/
theorem tableInfo_best_effort (drv : Driver) (input : TableInfoInput)
    (infoMap : List (String × JValue))
    (hdb : input.database ≠ "") (htbl : input.table ≠ "")
    (hinfo : drv.info input.database input.table =
      Except.ok (Except.ok infoMap)) :
    (tableInfo drv input).error = none ∧
    (stagedFailed (drv.indexList input.database input.table) = true →
        (tableInfo drv input).output.indexes = some []) ∧
    (stagedFailed (drv.countQuery input.database input.table) = true →
        (tableInfo drv input).output.docCount = 0) := by
  unfold tableInfo
  rw [if_neg (by simp [hdb, htbl]), hinfo]
  refine ⟨rfl, ?_, ?_⟩
  · intro hfail
    cases hidx : drv.indexList input.database input.table with
    | error e => rfl
    | ok inner =>
      cases inner with
      | error e => rfl
      | ok idxSlice =>
        rw [hidx] at hfail
        exact absurd hfail (by simp [stagedFailed])
  · intro hfail
    cases hcnt : drv.countQuery input.database input.table with
    | error e => rfl
    | ok inner =>
      cases inner with
      | error e => rfl
      | ok c =>
        rw [hcnt] at hfail
        exact absurd hfail (by simp [stagedFailed])

/-- Witness for C7: against a driver whose Info succeeds while the index
list fails at the run site and the count fails at the cursor site, the
command succeeds with empty indexes and zero count. -/
theorem tableInfo_best_effort_witness :
    (tableInfo flakyDriver ⟨"test", "users"⟩).error = none ∧
    (tableInfo flakyDriver ⟨"test", "users"⟩).output.indexes = some [] ∧
    (tableInfo flakyDriver ⟨"test", "users"⟩).output.docCount = 0 :=
  ⟨(tableInfo_best_effort flakyDriver ⟨"test", "users"⟩
      [("primary_key", JValue.str "id")] (by decide) (by decide) rfl).1,
   (tableInfo_best_effort flakyDriver ⟨"test", "users"⟩
      [("primary_key", JValue.str "id")] (by decide) (by decide) rfl).2.1 rfl,
   (tableInfo_best_effort flakyDriver ⟨"test", "users"⟩
      [("primary_key", JValue.str "id")] (by decide) (by decide) rfl).2.2 rfl⟩

/-- C3: write_data executes update as an insert with conflict strategy
"update" — a field-level merge into the existing document sharing the same
primary key, so fields of the existing document absent from the payload
survive — and executes upsert as an insert with conflict strategy
"replace" — a full replacement of the existing document sharing the same
primary key, dropping fields absent from the payload, and creating the
document when no document shares the key. -/
theorem writeData_update_vs_upsert (db tbl : String) (data : JValue) :
    writeCallFor "update" db tbl data =
      WriteCall.insert db tbl data (some "update") ∧
    writeCallFor "upsert" db tbl data =
      WriteCall.insert db tbl data (some "replace") ∧
    (∀ oldFs payloadFs k,
        jbeqOpt (docId (JValue.obj oldFs)) (docId (JValue.obj payloadFs)) =
          true →
        (docId (JValue.obj payloadFs)).isSome = true →
        fieldGet payloadFs k = none →
        ∃ mergedFs,
          applyConflictInsert (some "update") [JValue.obj oldFs]
              (JValue.obj payloadFs) = [JValue.obj mergedFs] ∧
          fieldGet mergedFs k = fieldGet oldFs k) ∧
    (∀ old payload, jbeqOpt (docId old) (docId payload) = true →
        (docId payload).isSome = true →
        applyConflictInsert (some "replace") [old] payload = [payload]) ∧
    (∀ payload, applyConflictInsert (some "replace") [] payload = [payload]) := by
  refine ⟨rfl, rfl, ?_, ?_, fun _ => rfl⟩
  · intro oldFs payloadFs k hbeq hsome habs
    refine ⟨jmergeInto oldFs payloadFs, ?_,
            jmergeInto_preserves_absent payloadFs oldFs k habs⟩
    unfold applyConflictInsert
    rw [if_pos (by rw [hbeq, hsome]; rfl), if_pos rfl, jmerge_obj]
  · intro old payload hbeq hsome
    unfold applyConflictInsert
    rw [if_pos (by rw [hbeq, hsome]; rfl), if_neg (by decide), if_pos rfl]

/-- Witness for C3: updating Go-test document `update_test` keeps its `age`
field absent from the payload; upserting replaces the whole document; an
upsert against an empty table creates the document. -/
theorem writeData_update_vs_upsert_witness :
    writeCallFor "update" "test" "users" (JValue.obj [("id", JValue.str "1")]) =
      WriteCall.insert "test" "users" (JValue.obj [("id", JValue.str "1")])
        (some "update") ∧
    writeCallFor "upsert" "test" "users" (JValue.obj [("id", JValue.str "1")]) =
      WriteCall.insert "test" "users" (JValue.obj [("id", JValue.str "1")])
        (some "replace") ∧
    (∃ mergedFs,
        applyConflictInsert (some "update")
            [JValue.obj [("id", JValue.str "1"), ("name", JValue.str "Before"),
                         ("age", JValue.num 10)]]
            (JValue.obj [("id", JValue.str "1"),
                         ("name", JValue.str "After")]) =
          [JValue.obj mergedFs] ∧
        fieldGet mergedFs "age" =
          fieldGet [("id", JValue.str "1"), ("name", JValue.str "Before"),
                    ("age", JValue.num 10)] "age") ∧
    applyConflictInsert (some "replace")
        [JValue.obj [("id", JValue.str "1"), ("name", JValue.str "Upserted")]]
        (JValue.obj [("id", JValue.str "1"),
                     ("name", JValue.str "UpsertedAgain")]) =
      [JValue.obj [("id", JValue.str "1"),
                   ("name", JValue.str "UpsertedAgain")]] ∧
    applyConflictInsert (some "replace") [] (JValue.obj [("id", JValue.str "1")]) =
      [JValue.obj [("id", JValue.str "1")]] :=
  ⟨(writeData_update_vs_upsert "test" "users"
      (JValue.obj [("id", JValue.str "1")])).1,
   (writeData_update_vs_upsert "test" "users"
      (JValue.obj [("id", JValue.str "1")])).2.1,
   (writeData_update_vs_upsert "test" "users"
      (JValue.obj [("id", JValue.str "1")])).2.2.1
      [("id", JValue.str "1"), ("name", JValue.str "Before"),
       ("age", JValue.num 10)]
      [("id", JValue.str "1"), ("name", JValue.str "After")] "age"
      (by simp [jbeqOpt, docId, fieldGet, jbeq])
      (by simp [docId, fieldGet])
      (by simp [fieldGet]),
   (writeData_update_vs_upsert "test" "users"
      (JValue.obj [("id", JValue.str "1")])).2.2.2.1
      (JValue.obj [("id", JValue.str "1"), ("name", JValue.str "Upserted")])
      (JValue.obj [("id", JValue.str "1"), ("name", JValue.str "UpsertedAgain")])
      (by simp [jbeqOpt, docId, fieldGet, jbeq])
      (by simp [docId, fieldGet]),
   (writeData_update_vs_upsert "test" "users"
      (JValue.obj [("id", JValue.str "1")])).2.2.2.2
      (JValue.obj [("id", JValue.str "1")])⟩

/-- C8: the advanced_query between range-scan over bounds a and b is
half-open [a, b): a matching document whose indexed field equals the lower
bound a is included in the results (whenever the interval is non-degenerate,
a < b), and every document whose indexed field equals the upper bound b is
excluded. -/
theorem between_half_open (index : String) (a b : Int) (docs : List JValue)
    (fs : List (String × JValue)) :
    (fieldGet fs index = some (JValue.num a) → JValue.obj fs ∈ docs → a < b →
        JValue.obj fs ∈ betweenScan index a b docs) ∧
    (fieldGet fs index = some (JValue.num b) →
        JValue.obj fs ∉ betweenScan index a b docs) := by
  constructor
  · intro hf hmem hab
    unfold betweenScan
    rw [List.mem_filter]
    refine ⟨hmem, ?_⟩
    simp [hf, hab]
  · intro hf hmem
    unfold betweenScan at hmem
    rw [List.mem_filter] at hmem
    have hpred := hmem.2
    simp [hf] at hpred

/-- Witness for C8: scanning [26, 35) keeps the document with indexed value
26 and drops the document with indexed value 35. -/
theorem between_half_open_witness :
    JValue.obj [("age", JValue.num 26)] ∈
      betweenScan "age" 26 35
        [JValue.obj [("age", JValue.num 26)],
         JValue.obj [("age", JValue.num 35)]] ∧
    JValue.obj [("age", JValue.num 35)] ∉
      betweenScan "age" 26 35
        [JValue.obj [("age", JValue.num 26)],
         JValue.obj [("age", JValue.num 35)]] :=
  ⟨(between_half_open "age" 26 35
      [JValue.obj [("age", JValue.num 26)], JValue.obj [("age", JValue.num 35)]]
      [("age", JValue.num 26)]).1 rfl (List.mem_cons_self _ _) (by decide),
   (between_half_open "age" 26 35
      [JValue.obj [("age", JValue.num 26)], JValue.obj [("age", JValue.num 35)]]
      [("age", JValue.num 35)]).2 rfl⟩

/-- C9: for aggregate on field F over a non-empty matching set, min and max
return the entire document whose F value is extreme — a full document
value, not a bare scalar — whereas sum, avg, and count return a bare
scalar value. -/
theorem aggregate_extremes_vs_scalars (field : String) (docs : List JValue)
    (d0 : JValue) (n0 : Int) (hfield : field ≠ "")
    (hd0 : d0 ∈ docs) (hn0 : fieldNum field d0 = some n0) :
    (∃ d n, aggregateRun "min" field docs = Except.ok (AggValue.document d) ∧
        d ∈ docs ∧ fieldNum field d = some n ∧
        ∀ d' n', d' ∈ docs → fieldNum field d' = some n' → n ≤ n') ∧
    (∃ d n, aggregateRun "max" field docs = Except.ok (AggValue.document d) ∧
        d ∈ docs ∧ fieldNum field d = some n ∧
        ∀ d' n', d' ∈ docs → fieldNum field d' = some n' → n' ≤ n) ∧
    (∃ q, aggregateRun "sum" field docs = Except.ok (AggValue.scalar q)) ∧
    (∃ q, aggregateRun "avg" field docs = Except.ok (AggValue.scalar q)) ∧
    (∃ q, aggregateRun "count" field docs = Except.ok (AggValue.scalar q)) := by
  have hvals_mem : ∀ p : JValue × Int, p ∈ aggValsOf field docs →
      p.1 ∈ docs ∧ fieldNum field p.1 = some p.2 := by
    intro p hp
    unfold aggValsOf at hp
    rcases List.mem_filterMap.mp hp with ⟨a, ha, hfa⟩
    rcases Option.map_eq_some'.mp hfa with ⟨n, hn, hpn⟩
    subst hpn
    exact ⟨ha, hn⟩
  have hvals_of : ∀ d' n', d' ∈ docs → fieldNum field d' = some n' →
      (d', n') ∈ aggValsOf field docs := by
    intro d' n' hd hn
    unfold aggValsOf
    exact List.mem_filterMap.mpr ⟨d', hd, by rw [hn]; rfl⟩
  obtain ⟨v, rest, hvr⟩ : ∃ v rest, aggValsOf field docs = v :: rest := by
    cases hv : aggValsOf field docs with
    | nil =>
      exfalso
      have hmem0 := hvals_of d0 n0 hd0 hn0
      rw [hv] at hmem0
      exact List.not_mem_nil _ hmem0
    | cons v rest => exact ⟨v, rest, rfl⟩
  have hminmem := hvals_mem (minPair v rest) (by rw [hvr]; exact minPair_mem v rest)
  have hmaxmem := hvals_mem (maxPair v rest) (by rw [hvr]; exact maxPair_mem v rest)
  refine ⟨⟨(minPair v rest).1, (minPair v rest).2, ?_, hminmem.1, hminmem.2, ?_⟩,
          ⟨(maxPair v rest).1, (maxPair v rest).2, ?_, hmaxmem.1, hmaxmem.2, ?_⟩,
          ?_, ?_, ?_⟩
  · unfold aggregateRun
    rw [if_neg (by decide), if_pos (by decide), if_neg hfield,
        if_neg (by decide), if_neg (by decide), if_pos (by decide), hvr]
  · intro d' n' hd' hn'
    have hin : (d', n') ∈ v :: rest := by
      rw [← hvr]
      exact hvals_of d' n' hd' hn'
    exact minPair_le v rest (d', n') hin
  · unfold aggregateRun
    rw [if_neg (by decide), if_pos (by decide), if_neg hfield,
        if_neg (by decide), if_neg (by decide), if_neg (by decide), hvr]
  · intro d' n' hd' hn'
    have hin : (d', n') ∈ v :: rest := by
      rw [← hvr]
      exact hvals_of d' n' hd' hn'
    exact maxPair_ge v rest (d', n') hin
  · exact ⟨_, by
      unfold aggregateRun
      rw [if_neg (by decide), if_pos (by decide), if_neg hfield,
          if_pos (by decide)]⟩
  · exact ⟨_, by
      unfold aggregateRun
      rw [if_neg (by decide), if_pos (by decide), if_neg hfield,
          if_neg (by decide), if_pos (by decide), hvr]⟩
  · exact ⟨_, by
      unfold aggregateRun
      rw [if_pos (by decide)]⟩

/-- Witness for C9 on the three seeded documents with ages 30, 25, 35. -/
theorem aggregate_extremes_vs_scalars_witness :
    (∃ d n, aggregateRun "min" "age" sampleDocs =
        Except.ok (AggValue.document d) ∧
        d ∈ sampleDocs ∧ fieldNum "age" d = some n ∧
        ∀ d' n', d' ∈ sampleDocs → fieldNum "age" d' = some n' → n ≤ n') ∧
    (∃ d n, aggregateRun "max" "age" sampleDocs =
        Except.ok (AggValue.document d) ∧
        d ∈ sampleDocs ∧ fieldNum "age" d = some n ∧
        ∀ d' n', d' ∈ sampleDocs → fieldNum "age" d' = some n' → n' ≤ n) ∧
    (∃ q, aggregateRun "sum" "age" sampleDocs =
        Except.ok (AggValue.scalar q)) ∧
    (∃ q, aggregateRun "avg" "age" sampleDocs =
        Except.ok (AggValue.scalar q)) ∧
    (∃ q, aggregateRun "count" "age" sampleDocs =
        Except.ok (AggValue.scalar q)) :=
  aggregate_extremes_vs_scalars "age" sampleDocs
    (JValue.obj [("id", JValue.str "1"), ("name", JValue.str "Alice"),
                 ("age", JValue.num 30)]) 30
    (by decide) (List.mem_cons_self _ _) rfl

end RethinkMCP
